import Mathlib

/-!
# Spider_RAG — verification of the retrieval-and-consensus pipeline

Shallow embedding of the retrieval-augmented SQL generation pipeline of
`src/app.py` together with the components it calls
(`util/retrieve.retrieve`, `util/self_improve.find_most_common_query_result`,
`util/generation.generate_sql`), which are not shipped in `src/` and are
therefore modelled from the specification (§4.2, §4.4, §4.5).

Conventions:
* embedding vectors are `List ℚ`; the similarity measure is a parameter
  `sim : Vec → Vec → ℚ` (the spec allows cosine similarity "or equivalent
  monotonic distance measure");
* result-set fingerprints are an abstract type `F` with decidable equality
  (the spec only requires grouping by identical canonical fingerprint);
* Python exceptions are `Except` values; the external SQL engine is an
  oracle function returning `Except String δ`.
-/

namespace SpiderRAG

/-- An exemplar of the corpus: (question, gold SQL, embedding) triple with a
stable unique identifier (spec §3, data model `Exemplar`). -/
structure Exemplar where
  id : Nat
  question : String
  sql : String
  embedding : List Rat
deriving DecidableEq, Repr

/-- Embedding vectors are rational-valued lists. -/
abbrev Vec := List Rat

/-- Modelled from the spec (§4.2, §6): a concrete "equivalent monotonic
distance measure" (dot product) usable as the similarity measure; the
development is parametric in the measure. -/
def dotSim (u v : Vec) : Rat :=
  (List.zipWith (· * ·) u v).sum

/-- The retrieval ordering: `a` before `b` iff `a` is strictly more similar
to the query, or they are exactly as similar and `a` has the smaller
exemplar id (spec §4.2 tie-break policy). -/
def retrOrder (sim : Vec → Vec → Rat) (q : Vec) (a b : Exemplar) : Prop :=
  sim q b.embedding < sim q a.embedding ∨
    (sim q a.embedding = sim q b.embedding ∧ a.id ≤ b.id)

instance (sim : Vec → Vec → Rat) (q : Vec) : DecidableRel (retrOrder sim q) :=
  fun a b => by unfold retrOrder; infer_instance

instance (sim : Vec → Vec → Rat) (q : Vec) : IsTotal Exemplar (retrOrder sim q) where
  total a b := by
    unfold retrOrder
    rcases lt_trichotomy (sim q a.embedding) (sim q b.embedding) with h | h | h
    · exact Or.inr (Or.inl h)
    · rcases Nat.le_total a.id b.id with hid | hid
      · exact Or.inl (Or.inr ⟨h, hid⟩)
      · exact Or.inr (Or.inr ⟨h.symm, hid⟩)
    · exact Or.inl (Or.inl h)

instance (sim : Vec → Vec → Rat) (q : Vec) : IsTrans Exemplar (retrOrder sim q) where
  trans a b c hab hbc := by
    unfold retrOrder at *
    rcases hab with h1 | ⟨h1, hid1⟩
    · rcases hbc with h2 | ⟨h2, _⟩
      · exact Or.inl (h2.trans h1)
      · exact Or.inl (h2 ▸ h1)
    · rcases hbc with h2 | ⟨h2, hid2⟩
      · exact Or.inl (h1 ▸ h2)
      · exact Or.inr ⟨h1.trans h2, hid1.trans hid2⟩

/-- Modelled from the spec (§4.2 `Retriever`, `util/retrieve.py` is not in
`src/`): `retrieve(corpus, q_vec, k)` computes the similarity of every
exemplar to the query, sorts by descending similarity with ties broken by
ascending exemplar id, and returns the top `k`; it fails with
`RetrievalError` if the corpus is empty and `k > 0`. -/
def retrieve (sim : Vec → Vec → Rat) (documents : List Exemplar)
    (q_vec : Vec) (k : Nat) : Except String (List Exemplar) :=
  if documents.isEmpty && k != 0 then
    Except.error "RetrievalError: empty corpus with nonzero k"
  else
    Except.ok ((documents.insertionSort (retrOrder sim q_vec)).take k)

/-- A generated SQL candidate, tagged with the shot count that produced it
(spec §3, data model `Candidate`). -/
structure Candidate where
  sql : String
  shot : Nat
deriving DecidableEq, Repr

/-- Errors surfaced to the caller of the pipeline (spec §7): consensus
selection fails with `NoViableCandidate` carrying every individual execution
error; the orchestrator fails with `GenerationFailure` when no candidate was
produced at all. -/
inductive PipelineError where
  | noViableCandidate (errors : List String)
  | generationFailure
deriving DecidableEq, Repr

/-- A cluster of execution outcomes: a canonical fingerprint together with
the candidates (in arrival order) whose execution produced it
(spec §4.4). -/
structure Cluster (F : Type) where
  fp : F
  members : List Candidate
deriving DecidableEq, Repr

/-- Size of a cluster: its number of members. -/
def Cluster.size {F : Type} (cl : Cluster F) : Nat :=
  cl.members.length

/-- The lowest shot-count tag among a cluster's members (spec §4.4
tie-break: "prefer the cluster produced by candidates with the lowest
shot-count tag"). -/
def Cluster.minShot {F : Type} (cl : Cluster F) : Nat :=
  match cl.members with
  | [] => 0
  | c :: cs => cs.foldl (fun a x => Nat.min a x.shot) c.shot

/-- SQL text of the first-added member of a cluster (spec §4.4: "any
representative member of the winning cluster (the first one added, for
determinism)"). -/
def Cluster.firstSql {F : Type} (cl : Cluster F) : String :=
  match cl.members with
  | [] => ""
  | c :: _ => c.sql

/-- Add one successfully-executed candidate to the cluster list keyed by its
fingerprint, appending to an existing cluster or opening a new one at the
end (so the cluster list stays in first-seen order). -/
def addToClusters {F : Type} [DecidableEq F] (cls : List (Cluster F))
    (fp : F) (c : Candidate) : List (Cluster F) :=
  match cls with
  | [] => [⟨fp, [c]⟩]
  | cl :: rest =>
    if cl.fp = fp then ⟨cl.fp, cl.members ++ [c]⟩ :: rest
    else cl :: addToClusters rest fp c

/-- Group the successful (candidate, fingerprint) outcomes into clusters of
identical fingerprint, in first-seen order (spec §4.4: "an explicit mapping
from result fingerprint to cluster (ordered sequence of arrival)"). -/
def clustersOf {F : Type} [DecidableEq F]
    (oks : List (Candidate × F)) : List (Cluster F) :=
  oks.foldl (fun cls p => addToClusters cls p.2 p.1) []

/-- `cl₂` strictly beats `cl₁` in the consensus ordering: larger membership,
or equal membership and a lower minimum shot-count tag (spec §4.4 majority
rule with tie-break). -/
def strictlyBetter {F : Type} (cl₂ cl₁ : Cluster F) : Prop :=
  cl₁.size < cl₂.size ∨ (cl₂.size = cl₁.size ∧ cl₂.minShot < cl₁.minShot)

instance {F : Type} : DecidableRel (strictlyBetter (F := F)) :=
  fun a b => by unfold strictlyBetter; infer_instance

/-- One step of the winner fold: replace the current best only on strict
improvement (so earlier clusters win remaining ties — first-seen order). -/
def bestStep {F : Type} (best cl : Cluster F) : Cluster F :=
  if strictlyBetter cl best then cl else best

/-- Select the winning cluster: the largest, with ties broken by lowest
minimum shot-count tag and then first-seen order (a left fold that replaces
the current best only on strict improvement). -/
def selectBest {F : Type} : List (Cluster F) → Option (Cluster F)
  | [] => none
  | c :: cs => some (cs.foldl bestStep c)

/-- Execution outcomes of the candidates in order: each candidate is run by
the external SQL executor against the target database (spec §4.4). -/
def outcomesOf {F : Type} (exec : String → String → Except String F)
    (db_path : String) (cands : List Candidate) :
    List (Candidate × Except String F) :=
  cands.map (fun c => (c, exec db_path c.sql))

/-- The individual execution errors, in candidate order (spec §4.4, §7:
attached to `NoViableCandidate` for diagnostics). -/
def errorsOf {F : Type} (exec : String → String → Except String F)
    (db_path : String) (cands : List Candidate) : List String :=
  (outcomesOf exec db_path cands).filterMap fun p =>
    match p.2 with
    | Except.error e => some e
    | Except.ok _ => none

/-- The successfully-executed candidates paired with their canonical
result-set fingerprints, in candidate order. -/
def oksOf {F : Type} (exec : String → String → Except String F)
    (db_path : String) (cands : List Candidate) : List (Candidate × F) :=
  (outcomesOf exec db_path cands).filterMap fun p =>
    match p.2 with
    | Except.ok f => some (p.1, f)
    | Except.error _ => none

/-- Modelled from the spec (§4.4 `ConsensusSelector`,
`util/self_improve.py` is not in `src/`): execute every candidate, group the
successes by identical fingerprint, and return the SQL of the first-added
member of the winning cluster; if every candidate errors, fail with
`NoViableCandidate` carrying the list of individual execution errors. -/
def find_most_common_query_result {F : Type} [DecidableEq F]
    (exec : String → String → Except String F)
    (cands : List Candidate) (db_path : String) :
    Except PipelineError String :=
  match selectBest (clustersOf (oksOf exec db_path cands)) with
  | none => Except.error (PipelineError.noViableCandidate (errorsOf exec db_path cands))
  | some cl => Except.ok cl.firstSql

/-- From `src/app.py` lines 20–28: `execute_sql_query(db_path, sql_query)`
wraps the external engine (sqlite3 + pandas, modelled as an oracle that
either yields a data frame or raises, i.e. `Except String δ`) in a
`try/except` and returns the pair `(df, None)` on success and
`(None, str(e))` on any exception. -/
def execute_sql_query {δ : Type} (engine : String → String → Except String δ)
    (db_path sql_query : String) : Option δ × Option String :=
  match engine db_path sql_query with
  | Except.ok df => (some df, none)
  | Except.error e => (none, some e)

/-- A user request: question text plus its embedding vector, computed once
per request (`query_item` in `src/app.py` lines 264–267). -/
structure Query where
  question : String
  embedding : Vec
deriving DecidableEq, Repr

/-- From `src/app.py` line 73: the fixed path template mapping a database
identifier to its sqlite file. -/
def dbPathOf (db_id : String) : String :=
  "/content/Spider_RAG/spider_data/database/" ++ db_id ++ "/" ++ db_id ++ ".sqlite"

/-- The dict returned by `rag_query` (`src/app.py` lines 75–79). -/
structure RagAnswer where
  question : String
  generated_sql : String
  db_path : String
deriving DecidableEq, Repr

/-- The read-only shared state `rag_query` consumes (`st.session_state.G`,
`.tables`, `.table_embeds`, `.column_embeds` and the exemplar `documents`):
the SchemaGraph and ExemplarStore of the spec (§3). The graph, table list
and auxiliary embeddings are opaque to `rag_query` (only passed through to
generation), hence type parameters. -/
structure SessionCtx (γ τ ε : Type) where
  G : γ
  tables : τ
  table_embeds : ε
  column_embeds : ε
  documents : List Exemplar

/-- From `src/app.py` lines 45–53 (the `isinstance(k, list)` branch of
`rag_query`): the loop `for shot in k: retrieved.append(retrieve(documents,
q_vec, shot))`, starting from the empty list. -/
def ragRetrieveLoop (sim : Vec → Vec → Rat) (documents : List Exemplar)
    (q_vec : Vec) (ks : List Nat) : List (Except String (List Exemplar)) :=
  ks.foldl (fun acc shot => acc ++ [retrieve sim documents q_vec shot]) []

/-- The type of the external candidate-generation capability
(`util/generation.generate_sql`, not in `src/`): from the query, the schema
graph, tables and auxiliary embeddings, and the per-shot retrieval results,
to a list of tagged candidates (spec §4.3). -/
abbrev GenFun (γ τ ε : Type) :=
  Query → γ → τ → ε → ε → List (Except String (List Exemplar)) → List Candidate

/-- From `src/app.py` lines 30–79: `rag_query` retrieves once per shot
count, generates candidates from the retrieval results and the shared
schema state, runs consensus selection against the database at the fixed
path for `db_id`, and returns the question, the chosen SQL and the path.
`NoViableCandidate` raised by consensus selection propagates. -/
def rag_query {γ τ ε F : Type} [DecidableEq F]
    (generate_sql : GenFun γ τ ε)
    (exec : String → String → Except String F)
    (sim : Vec → Vec → Rat)
    (ctx : SessionCtx γ τ ε)
    (db_id : String) (query : Query) (ks : List Nat) :
    Except PipelineError RagAnswer :=
  let retrieved := ragRetrieveLoop sim ctx.documents query.embedding ks
  let candidates :=
    generate_sql query ctx.G ctx.tables ctx.table_embeds ctx.column_embeds retrieved
  let db_path := dbPathOf db_id
  match find_most_common_query_result exec candidates db_path with
  | Except.error e => Except.error e
  | Except.ok best_sql =>
    Except.ok { question := query.question, generated_sql := best_sql, db_path := db_path }

/-- Retrieval stage of `rag_query` in state-passing form: reads
`ctx.documents`, writes nothing. -/
def retrieveStage {γ τ ε : Type} (sim : Vec → Vec → Rat)
    (ctx : SessionCtx γ τ ε) (q_vec : Vec) (ks : List Nat) :
    List (Except String (List Exemplar)) × SessionCtx γ τ ε :=
  (ragRetrieveLoop sim ctx.documents q_vec ks, ctx)

/-- Generation stage of `rag_query` in state-passing form: reads `ctx.G`,
`ctx.tables`, `ctx.table_embeds`, `ctx.column_embeds`, writes nothing. -/
def generateStage {γ τ ε : Type} (generate_sql : GenFun γ τ ε)
    (query : Query) (ctx : SessionCtx γ τ ε)
    (retrieved : List (Except String (List Exemplar))) :
    List Candidate × SessionCtx γ τ ε :=
  (generate_sql query ctx.G ctx.tables ctx.table_embeds ctx.column_embeds retrieved, ctx)

/-- Consensus stage of `rag_query` in state-passing form: consults only the
external executor, writes nothing to the session state. -/
def consensusStage {γ τ ε F : Type} [DecidableEq F]
    (exec : String → String → Except String F) (ctx : SessionCtx γ τ ε)
    (cands : List Candidate) (db_path : String) :
    Except PipelineError String × SessionCtx γ τ ε :=
  (find_most_common_query_result exec cands db_path, ctx)

/-- `rag_query` with the session state threaded explicitly through every
stage, so that mutation of the shared SchemaGraph/ExemplarStore would be
visible in the returned state. -/
def rag_queryS {γ τ ε F : Type} [DecidableEq F]
    (generate_sql : GenFun γ τ ε)
    (exec : String → String → Except String F)
    (sim : Vec → Vec → Rat)
    (ctx : SessionCtx γ τ ε)
    (db_id : String) (query : Query) (ks : List Nat) :
    Except PipelineError RagAnswer × SessionCtx γ τ ε :=
  let s₁ := retrieveStage sim ctx query.embedding ks
  let s₂ := generateStage generate_sql query s₁.2 s₁.1
  let s₃ := consensusStage exec s₂.2 s₂.1 (dbPathOf db_id)
  (match s₃.1 with
   | Except.error e => Except.error e
   | Except.ok best_sql =>
     Except.ok { question := query.question, generated_sql := best_sql,
                 db_path := dbPathOf db_id },
   s₃.2)

/-- Modelled from the spec (§4.3, §4.5): per-shot generation may fail and
then yields no candidate for that shot; the orchestrator sees one optional
candidate per shot and keeps the ones that were produced. -/
def candidatesOf (genResults : List (Option Candidate)) : List Candidate :=
  genResults.filterMap id

/-- Modelled from the spec (§4.5 `RagOrchestrator.answer`): if no candidate
was produced at all, fail with `GenerationFailure`; otherwise run consensus
selection on the produced candidates. -/
def answer {F : Type} [DecidableEq F]
    (exec : String → String → Except String F)
    (genResults : List (Option Candidate)) (db_path : String) :
    Except PipelineError String :=
  let cands := candidatesOf genResults
  if cands.isEmpty then Except.error PipelineError.generationFailure
  else find_most_common_query_result exec cands db_path

/-! ## Retrieval lemmas -/

/-- The sorted corpus is a permutation of the corpus, so its ids stay
nodup; any `take` of it keeps ids nodup. -/
lemma take_insertionSort_id_nodup (sim : Vec → Vec → Rat) (q : Vec)
    (docs : List Exemplar) (k : Nat)
    (hnd : (docs.map Exemplar.id).Nodup) :
    (((docs.insertionSort (retrOrder sim q)).take k).map Exemplar.id).Nodup := by
  have hperm : List.Perm (docs.insertionSort (retrOrder sim q)) docs :=
    List.perm_insertionSort _ _
  have hnd' : ((docs.insertionSort (retrOrder sim q)).map Exemplar.id).Nodup :=
    (hperm.map Exemplar.id).nodup_iff.mpr hnd
  exact List.Nodup.sublist ((List.take_sublist _ _).map _) hnd'

/-- Any `take` of the sorted corpus is pairwise ordered by `retrOrder`. -/
lemma take_insertionSort_pairwise (sim : Vec → Vec → Rat) (q : Vec)
    (docs : List Exemplar) (k : Nat) :
    ((docs.insertionSort (retrOrder sim q)).take k).Pairwise (retrOrder sim q) := by
  exact List.Pairwise.sublist (List.take_sublist _ _)
    (List.sorted_insertionSort (retrOrder sim q) docs)

/-- C1 counterexample: on the empty corpus with `k = 1`, `retrieve` fails
with `RetrievalError` (spec §4.2 failure clause) instead of returning the
empty sequence of length `min 1 0 = 0` that the claim demands. -/
theorem retrieve_empty_corpus_fails :
    retrieve dotSim [] [] 1 =
      Except.error "RetrievalError: empty corpus with nonzero k" ∧
    retrieve dotSim [] [] 1 ≠ Except.ok [] := by
  refine ⟨rfl, ?_⟩
  intro h
  simp [retrieve] at h

/-- C1 (amended): for a corpus with unique exemplar ids that is nonempty or
queried with `k = 0`, `retrieve` succeeds and returns exactly
`min k |corpus|` exemplars, with pairwise-distinct ids, sorted by
non-increasing similarity to the query; for `k = 0` the result is empty, and
`k` larger than the corpus is clamped without failing. -/
theorem retrieve_topk_spec (sim : Vec → Vec → Rat) (q : Vec)
    (docs : List Exemplar) (k : Nat)
    (hne : docs ≠ [] ∨ k = 0)
    (hnd : (docs.map Exemplar.id).Nodup) :
    ∃ l, retrieve sim docs q k = Except.ok l ∧
      l.length = min k docs.length ∧
      (l.map Exemplar.id).Nodup ∧
      l.Pairwise (fun a b => sim q b.embedding ≤ sim q a.embedding) ∧
      (k = 0 → l = []) := by
  have hcond : (docs.isEmpty && k != 0) = false := by
    rcases hne with h | h
    · simp [List.isEmpty_iff, h]
    · simp [h]
  refine ⟨(docs.insertionSort (retrOrder sim q)).take k, ?_, ?_, ?_, ?_, ?_⟩
  · simp [retrieve, hcond]
  · rw [List.length_take, List.length_insertionSort]
  · exact take_insertionSort_id_nodup sim q docs k hnd
  · refine (take_insertionSort_pairwise sim q docs k).imp ?_
    intro a b hab
    rcases hab with h | ⟨h, _⟩
    · exact le_of_lt h
    · exact le_of_eq h.symm
  · intro h
    simp [h]

/-- C1 witness: a concrete corpus of three exemplars (two of them tied in
similarity) queried with `k = 5 > 3`. -/
theorem retrieve_topk_spec_witness :
    (([⟨(1 : Nat), "qa", "sa", [(1 : Rat)]⟩, ⟨2, "qb", "sb", [3]⟩,
       ⟨3, "qc", "sc", [1]⟩] : List Exemplar) ≠ [] ∨ (5 : Nat) = 0) ∧
    ((([⟨(1 : Nat), "qa", "sa", [(1 : Rat)]⟩, ⟨2, "qb", "sb", [3]⟩,
       ⟨3, "qc", "sc", [1]⟩] : List Exemplar).map Exemplar.id).Nodup) ∧
    (∃ l, retrieve dotSim
        [⟨1, "qa", "sa", [1]⟩, ⟨2, "qb", "sb", [3]⟩, ⟨3, "qc", "sc", [1]⟩]
        [2] 5 = Except.ok l ∧
      l.length = min 5 (3 : Nat) ∧
      (l.map Exemplar.id).Nodup ∧
      l.Pairwise (fun a b => dotSim [2] b.embedding ≤ dotSim [2] a.embedding) ∧
      ((5 : Nat) = 0 → l = [])) := by
  refine ⟨Or.inl (by decide), by decide, ?_⟩
  exact retrieve_topk_spec dotSim [2]
    [⟨1, "qa", "sa", [1]⟩, ⟨2, "qb", "sb", [3]⟩, ⟨3, "qc", "sc", [1]⟩] 5
    (Or.inl (by decide)) (by decide)

/-- C4: retrieval is deterministic — identical corpus, query vector and `k`
give identical ordered output — and in any successful output, a strictly
earlier exemplar is at least as similar, and exactly-equally-similar
exemplars appear in ascending id order. -/
theorem retrieve_deterministic_tiebreak (sim : Vec → Vec → Rat) (q : Vec)
    (docs : List Exemplar) (k : Nat)
    (hnd : (docs.map Exemplar.id).Nodup) :
    (∀ docs' q' k', docs' = docs → q' = q → k' = k →
      retrieve sim docs' q' k' = retrieve sim docs q k) ∧
    (∀ l, retrieve sim docs q k = Except.ok l →
      l.Pairwise (fun a b => sim q b.embedding ≤ sim q a.embedding ∧
        (sim q a.embedding = sim q b.embedding → a.id < b.id))) := by
  constructor
  · intro docs' q' k' h1 h2 h3
    rw [h1, h2, h3]
  · intro l hl
    unfold retrieve at hl
    split at hl
    · exact absurd hl (by simp)
    · injection hl with h
      subst h
      have hord := take_insertionSort_pairwise sim q docs k
      have hids : ((docs.insertionSort (retrOrder sim q)).take k).Pairwise
          (fun a b => a.id ≠ b.id) := by
        have := take_insertionSort_id_nodup sim q docs k hnd
        exact (List.pairwise_map).mp this
      refine (hord.and hids).imp ?_
      intro a b hab
      rcases hab with ⟨h | ⟨heq, hle⟩, hne⟩
      · exact ⟨le_of_lt h, fun heq => absurd heq (ne_of_gt h)⟩
      · exact ⟨le_of_eq heq.symm, fun _ => lt_of_le_of_ne hle hne⟩

/-- C4 witness: the corpus of `retrieve_topk_spec_witness`, where exemplars
1 and 3 are exactly tied and must appear in ascending id order. -/
theorem retrieve_deterministic_tiebreak_witness :
    ((([⟨(1 : Nat), "qa", "sa", [(1 : Rat)]⟩, ⟨2, "qb", "sb", [3]⟩,
       ⟨3, "qc", "sc", [1]⟩] : List Exemplar).map Exemplar.id).Nodup) ∧
    ((∀ docs' q' k', docs' = ([⟨(1 : Nat), "qa", "sa", [(1 : Rat)]⟩,
        ⟨2, "qb", "sb", [3]⟩, ⟨3, "qc", "sc", [1]⟩] : List Exemplar) →
        q' = [(2 : Rat)] → k' = 5 →
      retrieve dotSim docs' q' k' = retrieve dotSim
        [⟨1, "qa", "sa", [1]⟩, ⟨2, "qb", "sb", [3]⟩, ⟨3, "qc", "sc", [1]⟩] [2] 5) ∧
    (∀ l, retrieve dotSim
        [⟨1, "qa", "sa", [1]⟩, ⟨2, "qb", "sb", [3]⟩, ⟨3, "qc", "sc", [1]⟩]
        [2] 5 = Except.ok l →
      l.Pairwise (fun a b => dotSim [2] b.embedding ≤ dotSim [2] a.embedding ∧
        (dotSim [2] a.embedding = dotSim [2] b.embedding → a.id < b.id)))) := by
  refine ⟨by decide, ?_⟩
  exact retrieve_deterministic_tiebreak dotSim [2]
    [⟨1, "qa", "sa", [1]⟩, ⟨2, "qb", "sb", [3]⟩, ⟨3, "qc", "sc", [1]⟩] 5 (by decide)

/-! ## Consensus-selection lemmas -/

lemma strictlyBetter_irrefl {F : Type} (a : Cluster F) : ¬ strictlyBetter a a := by
  unfold strictlyBetter
  omega

lemma strictlyBetter_trans {F : Type} {a b c : Cluster F}
    (h1 : strictlyBetter a b) (h2 : strictlyBetter b c) : strictlyBetter a c := by
  unfold strictlyBetter at *
  omega

/-- If `y` is at least as good as `x` and `x` strictly beats `z`, then `y`
strictly beats `z`. -/
lemma strictlyBetter_of_not_of_better {F : Type} {x y z : Cluster F}
    (h1 : ¬ strictlyBetter x y) (h2 : strictlyBetter x z) : strictlyBetter y z := by
  unfold strictlyBetter at *
  omega

/-- If `b` is at least as good as `x` and `r` strictly beats `b`, then `r`
strictly beats `x`. -/
lemma strictlyBetter_of_better_of_not {F : Type} {x b r : Cluster F}
    (h1 : ¬ strictlyBetter x b) (h2 : strictlyBetter r b) : strictlyBetter r x := by
  unfold strictlyBetter at *
  omega

/-- No cluster in the folded-over list strictly beats the fold's result:
the winner is maximal for size, and for lowest min-shot among its size. -/
lemma foldBest_not_better {F : Type} (l : List (Cluster F)) :
    ∀ (b : Cluster F), ∀ c ∈ b :: l, ¬ strictlyBetter c (l.foldl bestStep b) := by
  induction l with
  | nil =>
    intro b c hc
    rcases List.mem_singleton.mp hc with rfl
    exact strictlyBetter_irrefl c
  | cons x t ih =>
    intro b c hc
    have hfold : (x :: t).foldl bestStep b = t.foldl bestStep (bestStep b x) := rfl
    rw [hfold]
    by_cases hx : strictlyBetter x b
    · have hstep : bestStep b x = x := if_pos hx
      rw [hstep]
      rcases List.mem_cons.mp hc with rfl | hc'
      · -- c is the old base `b`; `x` beats it and the result is ≥ `x`
        have hxr : ¬ strictlyBetter x (t.foldl bestStep x) :=
          ih x x (List.mem_cons_self x t)
        intro hbr
        exact hxr (strictlyBetter_trans hx hbr)
      · exact ih x c hc'
    · have hstep : bestStep b x = b := if_neg hx
      rw [hstep]
      rcases List.mem_cons.mp hc with rfl | hc'
      · exact ih c c (List.mem_cons_self c t)
      · rcases List.mem_cons.mp hc' with rfl | hc''
        · -- c is `x`, which does not beat the base `b`; result is ≥ `b`
          have hbr : ¬ strictlyBetter b (t.foldl bestStep b) :=
            ih b b (List.mem_cons_self b t)
          intro hxr
          exact hbr (strictlyBetter_of_not_of_better hx hxr)
        · exact ih b c (List.mem_cons_of_mem b hc'')

/-- The fold's result occurs in the folded-over list, and every cluster
before it is strictly beaten by it (so the winner is the first-seen among
the equally good). -/
lemma foldBest_first {F : Type} (l : List (Cluster F)) :
    ∀ (b : Cluster F),
      ∃ pre post, b :: l = pre ++ (l.foldl bestStep b) :: post ∧
        ∀ c ∈ pre, strictlyBetter (l.foldl bestStep b) c := by
  induction l with
  | nil => exact fun b => ⟨[], [], rfl, by simp⟩
  | cons x t ih =>
    intro b
    have hfold : (x :: t).foldl bestStep b = t.foldl bestStep (bestStep b x) := rfl
    by_cases hx : strictlyBetter x b
    · have hstep : bestStep b x = x := if_pos hx
      rw [hfold, hstep]
      obtain ⟨pre', post', hsplit, hpre⟩ := ih x
      have hrb : strictlyBetter (t.foldl bestStep x) b := by
        have hxr : ¬ strictlyBetter x (t.foldl bestStep x) :=
          foldBest_not_better t x x (List.mem_cons_self x t)
        exact strictlyBetter_of_not_of_better hxr hx
      refine ⟨b :: pre', post', ?_, ?_⟩
      · rw [List.cons_append, ← hsplit]
      · intro c hc
        rcases List.mem_cons.mp hc with rfl | hc'
        · exact hrb
        · exact hpre c hc'
    · have hstep : bestStep b x = b := if_neg hx
      rw [hfold, hstep]
      obtain ⟨pre', post', hsplit, hpre⟩ := ih b
      cases pre' with
      | nil =>
        simp only [List.nil_append] at hsplit
        injection hsplit with h1 h2
        refine ⟨[], x :: t, ?_, by simp⟩
        rw [← h1, List.nil_append]
      | cons p pre'' =>
        rw [List.cons_append] at hsplit
        injection hsplit with h1 h2
        subst h1
        have hrb : strictlyBetter (t.foldl bestStep b) b := hpre b (List.mem_cons_self b pre'')
        refine ⟨b :: x :: pre'', post', ?_, ?_⟩
        · rw [List.cons_append, List.cons_append, ← h2]
        · intro c hc
          rcases List.mem_cons.mp hc with rfl | hc'
          · exact hrb
          · rcases List.mem_cons.mp hc' with rfl | hc''
            · exact strictlyBetter_of_better_of_not hx hrb
            · exact hpre c (List.mem_cons_of_mem b hc'')

lemma addToClusters_ne_nil {F : Type} [DecidableEq F]
    (cls : List (Cluster F)) (fp : F) (c : Candidate) :
    addToClusters cls fp c ≠ [] := by
  cases cls with
  | nil => simp [addToClusters]
  | cons cl rest =>
    unfold addToClusters
    by_cases h : cl.fp = fp <;> simp [h]

lemma foldl_add_ne_nil {F : Type} [DecidableEq F]
    (l : List (Candidate × F)) :
    ∀ (cls : List (Cluster F)), cls ≠ [] →
      l.foldl (fun cs p => addToClusters cs p.2 p.1) cls ≠ [] := by
  induction l with
  | nil => intro cls h; simpa using h
  | cons p t ih =>
    intro cls _
    exact ih (addToClusters cls p.2 p.1) (addToClusters_ne_nil cls p.2 p.1)

/-- Grouping a nonempty outcome list yields at least one cluster. -/
lemma clustersOf_ne_nil {F : Type} [DecidableEq F]
    (oks : List (Candidate × F)) (h : oks ≠ []) :
    clustersOf oks ≠ [] := by
  cases oks with
  | nil => exact absurd rfl h
  | cons p t =>
    unfold clustersOf
    rw [List.foldl_cons]
    exact foldl_add_ne_nil t _ (addToClusters_ne_nil [] p.2 p.1)

lemma addToClusters_members_ne_nil {F : Type} [DecidableEq F]
    {cls : List (Cluster F)} {fp : F} {c : Candidate}
    (h : ∀ cl ∈ cls, cl.members ≠ []) :
    ∀ cl ∈ addToClusters cls fp c, cl.members ≠ [] := by
  induction cls with
  | nil =>
    intro cl hcl
    simp only [addToClusters, List.mem_singleton] at hcl
    subst hcl
    simp
  | cons cl0 rest ih =>
    intro cl hcl
    unfold addToClusters at hcl
    by_cases hfp : cl0.fp = fp
    · rw [if_pos hfp] at hcl
      rcases List.mem_cons.mp hcl with rfl | hcl'
      · simp
      · exact h cl (List.mem_cons_of_mem cl0 hcl')
    · rw [if_neg hfp] at hcl
      rcases List.mem_cons.mp hcl with rfl | hcl'
      · exact h cl (List.mem_cons_self cl rest)
      · exact ih (fun x hx => h x (List.mem_cons_of_mem cl0 hx)) cl hcl'

/-- Every cluster produced by grouping has at least one member. -/
lemma clustersOf_members_ne_nil {F : Type} [DecidableEq F]
    (oks : List (Candidate × F)) :
    ∀ cl ∈ clustersOf oks, cl.members ≠ [] := by
  suffices h : ∀ (l : List (Candidate × F)) (cls : List (Cluster F)),
      (∀ cl ∈ cls, cl.members ≠ []) →
      ∀ cl ∈ l.foldl (fun cs p => addToClusters cs p.2 p.1) cls, cl.members ≠ [] by
    exact h oks [] (by simp)
  intro l
  induction l with
  | nil => intro cls h cl hcl; exact h cl hcl
  | cons p t ih =>
    intro cls h cl hcl
    rw [List.foldl_cons] at hcl
    exact ih (addToClusters cls p.2 p.1) (addToClusters_members_ne_nil h) cl hcl

lemma addToClusters_good {F : Type} [DecidableEq F]
    {cls : List (Cluster F)} {fp : F} {c : Candidate}
    {S : List (Candidate × F)}
    (hgood : ∀ cl ∈ cls, ∀ x ∈ cl.members, (x, cl.fp) ∈ S)
    (hc : (c, fp) ∈ S) :
    ∀ cl ∈ addToClusters cls fp c, ∀ x ∈ cl.members, (x, cl.fp) ∈ S := by
  induction cls with
  | nil =>
    intro cl hcl x hx
    simp only [addToClusters, List.mem_singleton] at hcl
    subst hcl
    simp only [List.mem_singleton] at hx
    subst hx
    exact hc
  | cons cl0 rest ih =>
    intro cl hcl x hx
    unfold addToClusters at hcl
    by_cases hfp : cl0.fp = fp
    · rw [if_pos hfp] at hcl
      rcases List.mem_cons.mp hcl with rfl | hcl'
      · simp only [List.mem_append, List.mem_singleton] at hx
        rcases hx with hx' | rfl
        · exact hgood cl0 (List.mem_cons_self cl0 rest) x hx'
        · rw [hfp]; exact hc
      · exact hgood cl (List.mem_cons_of_mem cl0 hcl') x hx
    · rw [if_neg hfp] at hcl
      rcases List.mem_cons.mp hcl with rfl | hcl'
      · exact hgood cl (List.mem_cons_self cl rest) x hx
      · exact ih (fun y hy => hgood y (List.mem_cons_of_mem cl0 hy)) cl hcl' x hx

/-- Soundness of the grouping: every member of every cluster is one of the
successful outcomes, paired with exactly the cluster's fingerprint. -/
lemma clustersOf_good {F : Type} [DecidableEq F]
    (oks : List (Candidate × F)) :
    ∀ cl ∈ clustersOf oks, ∀ x ∈ cl.members, (x, cl.fp) ∈ oks := by
  suffices h : ∀ (l S : List (Candidate × F)) (cls : List (Cluster F)),
      (∀ p ∈ l, p ∈ S) →
      (∀ cl ∈ cls, ∀ x ∈ cl.members, (x, cl.fp) ∈ S) →
      ∀ cl ∈ l.foldl (fun cs p => addToClusters cs p.2 p.1) cls,
        ∀ x ∈ cl.members, (x, cl.fp) ∈ S by
    exact h oks oks [] (fun p hp => hp) (by simp)
  intro l
  induction l with
  | nil => intro S cls _ hgood cl hcl; exact hgood cl hcl
  | cons p t ih =>
    intro S cls hsub hgood cl hcl
    rw [List.foldl_cons] at hcl
    have hp : (p.1, p.2) ∈ S := by
      have : p ∈ S := hsub p (List.mem_cons_self p t)
      simpa using this
    exact ih S (addToClusters cls p.2 p.1)
      (fun q hq => hsub q (List.mem_cons_of_mem p hq))
      (addToClusters_good hgood hp) cl hcl

/-- A successful outcome pair records a candidate of the input list whose
execution really produced that fingerprint. -/
lemma mem_oksOf {F : Type} {exec : String → String → Except String F}
    {db_path : String} {cands : List Candidate} {x : Candidate} {f : F}
    (h : (x, f) ∈ oksOf exec db_path cands) :
    x ∈ cands ∧ exec db_path x.sql = Except.ok f := by
  unfold oksOf outcomesOf at h
  rw [List.mem_filterMap] at h
  obtain ⟨p, hp, hmatch⟩ := h
  rw [List.mem_map] at hp
  obtain ⟨c, hc, rfl⟩ := hp
  revert hmatch
  cases hexec : exec db_path c.sql with
  | error e => intro hmatch; simp at hmatch
  | ok f' =>
    intro hmatch
    simp only [Option.some.injEq, Prod.mk.injEq] at hmatch
    obtain ⟨rfl, rfl⟩ := hmatch
    exact ⟨hc, hexec⟩

/-- The error message of a failed execution outcome (and `""` on a
successful one; used only under an all-error hypothesis). -/
def errOf {F : Type} : Except String F → String
  | Except.error e => e
  | Except.ok _ => ""

lemma oksOf_nil_of_all_error {F : Type}
    {exec : String → String → Except String F} {db_path : String}
    {cands : List Candidate}
    (h : ∀ c ∈ cands, ∃ e, exec db_path c.sql = Except.error e) :
    oksOf exec db_path cands = [] := by
  induction cands with
  | nil => rfl
  | cons c cs ih =>
    obtain ⟨e, he⟩ := h c (List.mem_cons_self c cs)
    simp only [oksOf, outcomesOf, List.map_cons, List.filterMap_cons, he]
    exact ih (fun x hx => h x (List.mem_cons_of_mem c hx))

lemma errorsOf_all_error {F : Type}
    {exec : String → String → Except String F} {db_path : String}
    {cands : List Candidate}
    (h : ∀ c ∈ cands, ∃ e, exec db_path c.sql = Except.error e) :
    errorsOf exec db_path cands = cands.map (fun c => errOf (exec db_path c.sql)) := by
  induction cands with
  | nil => rfl
  | cons c cs ih =>
    obtain ⟨e, he⟩ := h c (List.mem_cons_self c cs)
    have ih' := ih (fun x hx => h x (List.mem_cons_of_mem c hx))
    simp only [errorsOf, outcomesOf, List.map_cons, List.filterMap_cons, he] at ih' ⊢
    rw [ih']
    simp [errOf]

/-- C3: when every candidate's execution errors, consensus selection fails
with `NoViableCandidate` carrying the full list of the individual execution
errors, one per candidate and in candidate order. -/
theorem consensus_all_error {F : Type} [DecidableEq F]
    (exec : String → String → Except String F) (db_path : String)
    (cands : List Candidate)
    (h : ∀ c ∈ cands, ∃ e, exec db_path c.sql = Except.error e) :
    find_most_common_query_result exec cands db_path =
      Except.error (PipelineError.noViableCandidate
        (cands.map (fun c => errOf (exec db_path c.sql)))) ∧
    (cands.map (fun c => errOf (exec db_path c.sql))).length = cands.length := by
  have hoks : oksOf exec db_path cands = [] := oksOf_nil_of_all_error h
  refine ⟨?_, List.length_map _ _⟩
  unfold find_most_common_query_result
  rw [hoks, errorsOf_all_error h]
  rfl

/-- C3 witness: two candidates with malformed SQL against an executor that
always errors. -/
theorem consensus_all_error_witness :
    (∀ c ∈ ([⟨"bad1", 0⟩, ⟨"bad2", 3⟩] : List Candidate), ∃ e,
      (fun (_ s : String) => (Except.error ("no such table: " ++ s) : Except String Nat))
        "db" c.sql = Except.error e) ∧
    (find_most_common_query_result
        (fun (_ s : String) => (Except.error ("no such table: " ++ s) : Except String Nat))
        [⟨"bad1", 0⟩, ⟨"bad2", 3⟩] "db" =
      Except.error (PipelineError.noViableCandidate
        (([⟨"bad1", 0⟩, ⟨"bad2", 3⟩] : List Candidate).map
          (fun c => errOf ((fun (_ s : String) =>
            (Except.error ("no such table: " ++ s) : Except String Nat)) "db" c.sql)))) ∧
    (([⟨"bad1", 0⟩, ⟨"bad2", 3⟩] : List Candidate).map
          (fun c => errOf ((fun (_ s : String) =>
            (Except.error ("no such table: " ++ s) : Except String Nat)) "db" c.sql))).length =
      ([⟨"bad1", 0⟩, ⟨"bad2", 3⟩] : List Candidate).length) := by
  refine ⟨fun c _ => ⟨"no such table: " ++ c.sql, rfl⟩, ?_⟩
  exact consensus_all_error
    (fun (_ s : String) => (Except.error ("no such table: " ++ s) : Except String Nat))
    "db" [⟨"bad1", 0⟩, ⟨"bad2", 3⟩]
    (fun c _ => ⟨"no such table: " ++ c.sql, rfl⟩)

/-- C2: whenever one fingerprint cluster is strictly larger than every
other cluster, consensus selection returns the SQL of one of that
cluster's members — a candidate whose execution produced exactly the
cluster's fingerprint. -/
theorem consensus_strict_majority {F : Type} [DecidableEq F]
    (exec : String → String → Except String F) (db_path : String)
    (cands : List Candidate) (cl : Cluster F)
    (hmem : cl ∈ clustersOf (oksOf exec db_path cands))
    (hmaj : ∀ cl' ∈ clustersOf (oksOf exec db_path cands),
      cl' ≠ cl → cl'.size < cl.size) :
    ∃ c ∈ cl.members,
      find_most_common_query_result exec cands db_path = Except.ok c.sql ∧
      exec db_path c.sql = Except.ok cl.fp := by
  obtain ⟨c0, cs, hcls⟩ : ∃ c0 cs,
      clustersOf (oksOf exec db_path cands) = c0 :: cs := by
    cases hc : clustersOf (oksOf exec db_path cands) with
    | nil => rw [hc] at hmem; simp at hmem
    | cons a l => exact ⟨a, l, rfl⟩
  have hsel : selectBest (clustersOf (oksOf exec db_path cands)) =
      some (cs.foldl bestStep c0) := by
    rw [hcls]; rfl
  obtain ⟨pre, post, hsplit, _⟩ := foldBest_first cs c0
  have hbestmem : cs.foldl bestStep c0 ∈ clustersOf (oksOf exec db_path cands) := by
    rw [hcls, hsplit]
    exact List.mem_append_right pre (List.mem_cons_self _ _)
  have hbeq : cs.foldl bestStep c0 = cl := by
    by_contra hne
    have h1 := hmaj (cs.foldl bestStep c0) hbestmem hne
    have h2 : ¬ strictlyBetter cl (cs.foldl bestStep c0) :=
      foldBest_not_better cs c0 cl (hcls ▸ hmem)
    exact h2 (Or.inl h1)
  have hfind : find_most_common_query_result exec cands db_path =
      Except.ok (Cluster.firstSql cl) := by
    unfold find_most_common_query_result
    rw [hsel, hbeq]
  have hne : cl.members ≠ [] :=
    clustersOf_members_ne_nil _ cl hmem
  obtain ⟨m, ms, hm⟩ : ∃ m ms, cl.members = m :: ms := by
    cases hmm : cl.members with
    | nil => exact absurd hmm hne
    | cons a l => exact ⟨a, l, rfl⟩
  refine ⟨m, by rw [hm]; exact List.mem_cons_self m ms, ?_, ?_⟩
  · rw [hfind]
    unfold Cluster.firstSql
    rw [hm]
  · have hgood := clustersOf_good _ cl hmem m (by rw [hm]; exact List.mem_cons_self m ms)
    exact (mem_oksOf hgood).2

/-- A concrete executor for the strict-majority witness: candidates `s1`
and `s2` produce fingerprint 1, candidate `s3` produces fingerprint 2. -/
def execMajority : String → String → Except String Nat :=
  fun _ s => if s = "s3" then Except.ok 2 else Except.ok 1

/-- C2 witness: three candidates with fingerprints 1, 1, 2 — the "A"
cluster `{s1, s2}` has strict majority and one of its SQLs is returned. -/
theorem consensus_strict_majority_witness :
    ((⟨1, [⟨"s1", 0⟩, ⟨"s2", 3⟩]⟩ : Cluster Nat) ∈
      clustersOf (oksOf execMajority "db" [⟨"s1", 0⟩, ⟨"s2", 3⟩, ⟨"s3", 5⟩]) ∧
     (∀ cl' ∈ clustersOf (oksOf execMajority "db" [⟨"s1", 0⟩, ⟨"s2", 3⟩, ⟨"s3", 5⟩]),
      cl' ≠ (⟨1, [⟨"s1", 0⟩, ⟨"s2", 3⟩]⟩ : Cluster Nat) →
        cl'.size < (⟨1, [⟨"s1", 0⟩, ⟨"s2", 3⟩]⟩ : Cluster Nat).size)) ∧
    (∃ c ∈ (⟨1, [⟨"s1", 0⟩, ⟨"s2", 3⟩]⟩ : Cluster Nat).members,
      find_most_common_query_result execMajority
        [⟨"s1", 0⟩, ⟨"s2", 3⟩, ⟨"s3", 5⟩] "db" = Except.ok c.sql ∧
      execMajority "db" c.sql = Except.ok (⟨1, [⟨"s1", 0⟩, ⟨"s2", 3⟩]⟩ : Cluster Nat).fp) := by
  refine ⟨⟨by decide, by decide⟩, ?_⟩
  exact consensus_strict_majority execMajority
    "db" [⟨"s1", 0⟩, ⟨"s2", 3⟩, ⟨"s3", 5⟩] ⟨1, [⟨"s1", 0⟩, ⟨"s2", 3⟩]⟩
    (by decide) (by decide)

/-- C5: whenever at least one candidate executes successfully, consensus
selection returns the SQL of a member of a cluster `best` that (i) has
maximal size, (ii) has the lowest minimum shot-count tag among the clusters
of maximal size, and (iii) is the first-seen such cluster: every cluster
arriving before it is strictly smaller or has a strictly higher minimum
shot-count tag at equal size. Being a pure function of its arguments, the
choice is reproducible across runs. -/
theorem consensus_tiebreak_lowest_shot {F : Type} [DecidableEq F]
    (exec : String → String → Except String F) (db_path : String)
    (cands : List Candidate)
    (h : oksOf exec db_path cands ≠ []) :
    ∃ best pre post,
      clustersOf (oksOf exec db_path cands) = pre ++ best :: post ∧
      (∃ c ∈ best.members,
        find_most_common_query_result exec cands db_path = Except.ok c.sql) ∧
      (∀ cl ∈ clustersOf (oksOf exec db_path cands), cl.size ≤ best.size) ∧
      (∀ cl ∈ clustersOf (oksOf exec db_path cands),
        cl.size = best.size → best.minShot ≤ cl.minShot) ∧
      (∀ cl ∈ pre,
        cl.size < best.size ∨ (cl.size = best.size ∧ best.minShot < cl.minShot)) := by
  obtain ⟨c0, cs, hcls⟩ : ∃ c0 cs,
      clustersOf (oksOf exec db_path cands) = c0 :: cs := by
    cases hc : clustersOf (oksOf exec db_path cands) with
    | nil => exact absurd hc (clustersOf_ne_nil _ h)
    | cons a l => exact ⟨a, l, rfl⟩
  have hsel : selectBest (clustersOf (oksOf exec db_path cands)) =
      some (cs.foldl bestStep c0) := by
    rw [hcls]; rfl
  obtain ⟨pre, post, hsplit, hpre⟩ := foldBest_first cs c0
  have hbestmem : cs.foldl bestStep c0 ∈ clustersOf (oksOf exec db_path cands) := by
    rw [hcls, hsplit]
    exact List.mem_append_right pre (List.mem_cons_self _ _)
  have hnb : ∀ cl ∈ clustersOf (oksOf exec db_path cands),
      ¬ strictlyBetter cl (cs.foldl bestStep c0) := by
    intro cl hcl
    exact foldBest_not_better cs c0 cl (hcls ▸ hcl)
  refine ⟨cs.foldl bestStep c0, pre, post, by rw [hcls, hsplit], ?_, ?_, ?_, ?_⟩
  · have hne : (cs.foldl bestStep c0).members ≠ [] :=
      clustersOf_members_ne_nil _ _ hbestmem
    obtain ⟨m, ms, hm⟩ : ∃ m ms, (cs.foldl bestStep c0).members = m :: ms := by
      cases hmm : (cs.foldl bestStep c0).members with
      | nil => exact absurd hmm hne
      | cons a l => exact ⟨a, l, rfl⟩
    refine ⟨m, by rw [hm]; exact List.mem_cons_self m ms, ?_⟩
    unfold find_most_common_query_result
    rw [hsel]
    simp only [Cluster.firstSql, hm]
  · intro cl hcl
    have := hnb cl hcl
    unfold strictlyBetter at this
    omega
  · intro cl hcl heq
    have := hnb cl hcl
    unfold strictlyBetter at this
    omega
  · intro cl hcl
    have := hpre cl hcl
    unfold strictlyBetter at this
    omega

/-- A concrete executor for the tie-break witness: candidates `a` and `a2`
produce fingerprint 1, candidates `b` and `b2` produce fingerprint 2 —
two clusters of size two. -/
def execTie : String → String → Except String Nat :=
  fun _ s => if s = "b" || s = "b2" then Except.ok 2 else Except.ok 1

/-- C5 witness: two equally-sized clusters, `{a, a2}` with shot tags
`{5, 5}` (first seen) and `{b, b2}` with shot tags `{3, 3}`; the winner must
be the lower-shot cluster `{b, b2}`. -/
theorem consensus_tiebreak_lowest_shot_witness :
    (oksOf execTie "db" [⟨"a", 5⟩, ⟨"b", 3⟩, ⟨"a2", 5⟩, ⟨"b2", 3⟩] ≠ []) ∧
    (∃ best pre post,
      clustersOf (oksOf execTie "db" [⟨"a", 5⟩, ⟨"b", 3⟩, ⟨"a2", 5⟩, ⟨"b2", 3⟩]) =
        pre ++ best :: post ∧
      (∃ c ∈ best.members,
        find_most_common_query_result execTie
          [⟨"a", 5⟩, ⟨"b", 3⟩, ⟨"a2", 5⟩, ⟨"b2", 3⟩] "db" = Except.ok c.sql) ∧
      (∀ cl ∈ clustersOf (oksOf execTie "db" [⟨"a", 5⟩, ⟨"b", 3⟩, ⟨"a2", 5⟩, ⟨"b2", 3⟩]),
        cl.size ≤ best.size) ∧
      (∀ cl ∈ clustersOf (oksOf execTie "db" [⟨"a", 5⟩, ⟨"b", 3⟩, ⟨"a2", 5⟩, ⟨"b2", 3⟩]),
        cl.size = best.size → best.minShot ≤ cl.minShot) ∧
      (∀ cl ∈ pre,
        cl.size < best.size ∨ (cl.size = best.size ∧ best.minShot < cl.minShot))) := by
  refine ⟨by decide, ?_⟩
  exact consensus_tiebreak_lowest_shot execTie "db"
    [⟨"a", 5⟩, ⟨"b", 3⟩, ⟨"a2", 5⟩, ⟨"b2", 3⟩] (by decide)

/-! ## Orchestrator lemmas -/

lemma foldl_append_singleton {α β : Type} (f : α → β) (l : List α) :
    ∀ (init : List β),
      l.foldl (fun acc x => acc ++ [f x]) init = init ++ l.map f := by
  induction l with
  | nil => intro init; simp
  | cons x t ih =>
    intro init
    rw [List.foldl_cons, ih, List.map_cons]
    simp

/-- C6: the retrieval stage of `rag_query` invokes `retrieve` exactly once
per requested shot count: the loop's output is one retrieval result per
count, in the order the counts were given, with the i-th result depending
only on the i-th count — results from different shot counts are never
merged. -/
theorem rag_retrieve_once_per_shot (sim : Vec → Vec → Rat)
    (documents : List Exemplar) (q_vec : Vec) (ks : List Nat) :
    ragRetrieveLoop sim documents q_vec ks =
      ks.map (fun shot => retrieve sim documents q_vec shot) ∧
    (ragRetrieveLoop sim documents q_vec ks).length = ks.length ∧
    (∀ i, i < ks.length →
      (ragRetrieveLoop sim documents q_vec ks)[i]? =
        ks[i]?.map (fun shot => retrieve sim documents q_vec shot)) := by
  have hmap : ragRetrieveLoop sim documents q_vec ks =
      ks.map (fun shot => retrieve sim documents q_vec shot) := by
    unfold ragRetrieveLoop
    rw [foldl_append_singleton]
    simp
  refine ⟨hmap, by rw [hmap, List.length_map], ?_⟩
  intro i _
  rw [hmap, List.getElem?_map]

/-- C6 witness: shot counts `[0, 3]` over a two-exemplar corpus. -/
theorem rag_retrieve_once_per_shot_witness :
    ragRetrieveLoop dotSim [⟨1, "qa", "sa", [1]⟩, ⟨2, "qb", "sb", [2]⟩] [1] [0, 3] =
      ([0, 3] : List Nat).map
        (fun shot => retrieve dotSim [⟨1, "qa", "sa", [1]⟩, ⟨2, "qb", "sb", [2]⟩] [1] shot) ∧
    (ragRetrieveLoop dotSim [⟨1, "qa", "sa", [1]⟩, ⟨2, "qb", "sb", [2]⟩] [1] [0, 3]).length =
      ([0, 3] : List Nat).length ∧
    (∀ i, i < ([0, 3] : List Nat).length →
      (ragRetrieveLoop dotSim [⟨1, "qa", "sa", [1]⟩, ⟨2, "qb", "sb", [2]⟩] [1] [0, 3])[i]? =
        (([0, 3] : List Nat)[i]?).map
          (fun shot => retrieve dotSim [⟨1, "qa", "sa", [1]⟩, ⟨2, "qb", "sb", [2]⟩] [1] shot)) :=
  rag_retrieve_once_per_shot dotSim [⟨1, "qa", "sa", [1]⟩, ⟨2, "qb", "sb", [2]⟩] [1] [0, 3]

/-- An executor on which every SQL statement errors (for the C7
counterexample). -/
def execErrAll : String → String → Except String Nat :=
  fun _ _ => Except.error "syntax error"

/-- C7 counterexample: one candidate is produced (so the claim demands a
consensus outcome), yet its execution errors, and the orchestrator fails
with `NoViableCandidate` rather than completing with a consensus outcome. -/
theorem answer_one_candidate_all_error :
    candidatesOf [some ⟨"bad", 0⟩] ≠ [] ∧
    answer execErrAll [some ⟨"bad", 0⟩] "db" =
      Except.error (PipelineError.noViableCandidate ["syntax error"]) := by
  exact ⟨by decide, rfl⟩

lemma mem_oksOf_of_ok {F : Type} {exec : String → String → Except String F}
    {db_path : String} {cands : List Candidate} {c : Candidate} {f : F}
    (hc : c ∈ cands) (hex : exec db_path c.sql = Except.ok f) :
    (c, f) ∈ oksOf exec db_path cands := by
  unfold oksOf outcomesOf
  rw [List.mem_filterMap]
  refine ⟨(c, exec db_path c.sql), List.mem_map_of_mem _ hc, ?_⟩
  rw [hex]

/-- The consensus selector never reports `GenerationFailure`: its only
failure mode is `NoViableCandidate`. -/
lemma find_ne_generationFailure {F : Type} [DecidableEq F]
    (exec : String → String → Except String F)
    (cands : List Candidate) (db_path : String) :
    find_most_common_query_result exec cands db_path ≠
      Except.error PipelineError.generationFailure := by
  unfold find_most_common_query_result
  cases selectBest (clustersOf (oksOf exec db_path cands)) with
  | none => simp
  | some cl => simp

/-- C7 (amended): the orchestrator fails with `GenerationFailure` exactly
when no candidate was produced at all; and whenever at least one produced
candidate executes successfully it completes with a consensus outcome —
per-shot generation failures (`none` entries) are dropped without aborting
the request. -/
theorem answer_spec {F : Type} [DecidableEq F]
    (exec : String → String → Except String F)
    (genResults : List (Option Candidate)) (db_path : String) :
    (answer exec genResults db_path = Except.error PipelineError.generationFailure ↔
      candidatesOf genResults = []) ∧
    ((∃ c ∈ candidatesOf genResults, ∃ f, exec db_path c.sql = Except.ok f) →
      ∃ sql, answer exec genResults db_path = Except.ok sql) := by
  constructor
  · unfold answer
    by_cases hc : (candidatesOf genResults).isEmpty
    · rw [if_pos hc]
      simpa using List.isEmpty_iff.mp hc
    · rw [if_neg hc]
      constructor
      · intro h
        exact absurd h (find_ne_generationFailure exec (candidatesOf genResults) db_path)
      · intro h
        exact absurd (List.isEmpty_iff.mpr h) hc
  · rintro ⟨c, hc, f, hf⟩
    have hoks : oksOf exec db_path (candidatesOf genResults) ≠ [] :=
      List.ne_nil_of_mem (mem_oksOf_of_ok hc hf)
    have hcls : clustersOf (oksOf exec db_path (candidatesOf genResults)) ≠ [] :=
      clustersOf_ne_nil _ hoks
    obtain ⟨c0, cs, hcls'⟩ : ∃ c0 cs,
        clustersOf (oksOf exec db_path (candidatesOf genResults)) = c0 :: cs := by
      cases hcc : clustersOf (oksOf exec db_path (candidatesOf genResults)) with
      | nil => exact absurd hcc hcls
      | cons a l => exact ⟨a, l, rfl⟩
    have hne : ¬ (candidatesOf genResults).isEmpty := by
      simp only [List.isEmpty_iff]
      exact List.ne_nil_of_mem hc
    refine ⟨(cs.foldl bestStep c0).firstSql, ?_⟩
    unfold answer
    rw [if_neg hne]
    unfold find_most_common_query_result
    rw [hcls']
    rfl

/-- An executor on which every SQL statement succeeds with the same
fingerprint (for the C7 witness). -/
def execOkOne : String → String → Except String Nat :=
  fun _ _ => Except.ok 1

/-- C7 witness: one shot fails to generate (`none`) and one produces a
candidate that executes successfully; the orchestrator completes with a
consensus outcome, and `GenerationFailure` is characterized by the empty
candidate list. -/
theorem answer_spec_witness :
    (answer execOkOne [none, some ⟨"q", 0⟩] "db" =
        Except.error PipelineError.generationFailure ↔
      candidatesOf [none, some ⟨"q", 0⟩] = []) ∧
    ((∃ c ∈ candidatesOf [none, some ⟨"q", 0⟩], ∃ f,
        execOkOne "db" c.sql = Except.ok f) →
      ∃ sql, answer execOkOne [none, some ⟨"q", 0⟩] "db" = Except.ok sql) :=
  answer_spec execOkOne [none, some ⟨"q", 0⟩] "db"

/-- C8: for every oracle behavior of the SQL engine (including every way it
can raise) and every database path and SQL string, `execute_sql_query`
returns a value: either the result rows with no error, or the error message
with no rows — never an uncaught exception. -/
theorem execute_sql_query_captures_errors {δ : Type}
    (engine : String → String → Except String δ) (db_path sql_query : String) :
    (∃ df, execute_sql_query engine db_path sql_query = (some df, none)) ∨
    (∃ e, execute_sql_query engine db_path sql_query = (none, some e)) := by
  unfold execute_sql_query
  cases engine db_path sql_query with
  | ok df => exact Or.inl ⟨df, rfl⟩
  | error e => exact Or.inr ⟨e, rfl⟩

/-- C9: one end-to-end request leaves the shared state untouched: the
state-passing form of `rag_query` returns the SchemaGraph/ExemplarStore
context exactly as given (no stage writes to it), and computes the same
answer as `rag_query`. -/
theorem rag_query_preserves_session {γ τ ε F : Type} [DecidableEq F]
    (generate_sql : GenFun γ τ ε)
    (exec : String → String → Except String F)
    (sim : Vec → Vec → Rat) (ctx : SessionCtx γ τ ε)
    (db_id : String) (query : Query) (ks : List Nat) :
    (rag_queryS generate_sql exec sim ctx db_id query ks).2 = ctx ∧
    (rag_queryS generate_sql exec sim ctx db_id query ks).1 =
      rag_query generate_sql exec sim ctx db_id query ks :=
  ⟨rfl, rfl⟩

/-- C10: a successful `rag_query` returns a dict whose `question` field is
the input question unchanged, and whose `db_path` field is produced from
the database identifier alone by the fixed path template `dbPathOf` —
independent of the question, shot counts, session state, generation and
execution behavior. -/
theorem rag_query_question_and_db_path {γ τ ε F : Type} [DecidableEq F]
    (generate_sql : GenFun γ τ ε)
    (exec : String → String → Except String F)
    (sim : Vec → Vec → Rat) (ctx : SessionCtx γ τ ε)
    (db_id : String) (query : Query) (ks : List Nat) (r : RagAnswer)
    (h : rag_query generate_sql exec sim ctx db_id query ks = Except.ok r) :
    r.question = query.question ∧ r.db_path = dbPathOf db_id := by
  simp only [rag_query] at h
  split at h
  · exact absurd h (by simp)
  · injection h with h'
    subst h'
    exact ⟨rfl, rfl⟩

/-- A generation capability producing one fixed candidate (for the C10
witness). -/
def genOne : GenFun Unit Unit Unit :=
  fun _ _ _ _ _ _ => [⟨"SELECT 1", 0⟩]

/-- C10 witness: a full concrete pipeline run on the `department_store`
database identifier. -/
theorem rag_query_question_and_db_path_witness :
    (rag_query genOne execOkOne dotSim ⟨(), (), (), (), []⟩ "department_store"
        ⟨"What is the id of the department with the least staff?", []⟩ [0] =
      Except.ok ⟨"What is the id of the department with the least staff?",
        "SELECT 1", dbPathOf "department_store"⟩) ∧
    ((⟨"What is the id of the department with the least staff?",
        "SELECT 1", dbPathOf "department_store"⟩ : RagAnswer).question =
      (⟨"What is the id of the department with the least staff?", []⟩ : Query).question ∧
     (⟨"What is the id of the department with the least staff?",
        "SELECT 1", dbPathOf "department_store"⟩ : RagAnswer).db_path =
      dbPathOf "department_store") :=
  ⟨rfl, rag_query_question_and_db_path genOne execOkOne dotSim ⟨(), (), (), (), []⟩
    "department_store" ⟨"What is the id of the department with the least staff?", []⟩
    [0] ⟨"What is the id of the department with the least staff?",
      "SELECT 1", dbPathOf "department_store"⟩ rfl⟩

end SpiderRAG
